import Mathlib

/-!
Shallow embedding of `src/examples/udp_echo_client.py`, a UDP echo probe:
it binds a socket to `BIND_ADDR`, then loops forever: generate a random
128-byte payload, send it to `ECHO_ADDR`, receive datagrams (buffer 128)
discarding those whose sender is not `ECHO_ADDR`, assert the accepted bytes
equal the payload, sleep one second, repeat.

Randomness is modelled by an explicit stream `r : Nat → Nat` feeding
`random.randint`; the network is modelled by an environment function giving
the (finite) list of datagrams arriving during each iteration's receive
phase.  An empty-of-matching-sender arrival list models the unbounded
blocking wait.
-/

namespace UdpEchoClient

/-- An (IP address, port) pair, as in the Python tuples. -/
abbrev Endpoint := String × Nat

/-- `BIND_ADDR = ('10.0.0.1', 2048)` from the source. -/
def BIND_ADDR : Endpoint := ("10.0.0.1", 2048)

/-- `ECHO_ADDR = ('10.0.0.103', 4096)` from the source. -/
def ECHO_ADDR : Endpoint := ("10.0.0.103", 4096)

/-- Model of Python `random.randint(lo, hi)`: a uniformly chosen integer
`N` with `lo ≤ N ≤ hi`, drawn here from an explicit random source `r`. -/
def randint (lo hi r : Nat) : Nat := lo + r % (hi - lo + 1)

/-- `message = [random.randint(0, 255) for _ in range(128)]` with the random
stream `r` supplying the draw for each of the 128 positions. -/
def genPayload (r : Nat → Nat) : List Nat :=
  (List.range 128).map (fun i => randint 0 255 (r i))

/-- A UDP datagram as seen by the receiver: its byte content and the
endpoint it was received from. -/
structure Datagram where
  data : List Nat
  src : Endpoint
deriving DecidableEq, Repr

/-- The buffer size passed to `sock.recvfrom(128)`. -/
def RECV_BUFSIZE : Nat := 128

/-- Model of `sock.recvfrom(128)` applied to an arriving datagram: at most
`RECV_BUFSIZE` bytes of its content are returned, with the sender address. -/
def recvfrom (d : Datagram) : List Nat × Endpoint :=
  (d.data.take RECV_BUFSIZE, d.src)

/-- Model of the inner `while src_addr != ECHO_ADDR: message_, src_addr =
sock.recvfrom(128)` loop over a finite arrival list: scan the arrivals,
discarding each datagram whose sender is not `ECHO_ADDR`, and stop at the
first one whose sender is `ECHO_ADDR`.  Returns the discarded ones, the
accepted datagram, and the arrivals left unread; `none` means no arrival
matched, i.e. the loop is still blocked in `recvfrom`. -/
def recvUntilMatch : List Datagram → Option (List Datagram × Datagram × List Datagram)
  | [] => none
  | d :: rest =>
    if d.src = ECHO_ADDR then some ([], d, rest)
    else
      match recvUntilMatch rest with
      | none => none
      | some (skipped, m, left) => some (d :: skipped, m, left)

/-- Observable events of one execution: a send (payload and destination),
a `recvfrom` return, the acceptance of a matching-sender datagram by the
inner loop, the `time.sleep` pause, and a fatal `assert` failure. -/
inductive Event where
  | send (payload : List Nat) (dest : Endpoint)
  | recv (d : Datagram)
  | accept (data : List Nat)
  | sleep (secs : Nat)
  | assertFail
deriving DecidableEq, Repr

/-- The event trace of one iteration of the outer `while True` loop, given
the payload generated at its start and the datagrams arriving during its
receive phase: send to `ECHO_ADDR`, receive (discarding non-matching
senders) until a match, then either `assert` passes and `time.sleep(1)`
runs, or the `assert` fails fatally.  If no arrival matches, the iteration
stays blocked in `recvfrom` after reading every arrival. -/
def iterTrace (payload : List Nat) (incoming : List Datagram) : List Event :=
  Event.send payload ECHO_ADDR ::
    match recvUntilMatch incoming with
    | none => incoming.map Event.recv
    | some (skipped, m, _) =>
      (skipped.map Event.recv ++ [Event.recv m, Event.accept (recvfrom m).1]) ++
        (if (recvfrom m).1 = payload then [Event.sleep 1] else [Event.assertFail])

/-- The event trace of up to `fuel` iterations of the outer loop starting
at iteration index `i`: `payloads n` is the payload generated at iteration
`n`, and `env n p` the datagrams arriving during iteration `n`'s receive
phase after `p` was sent.  The loop continues to the next iteration only
when the iteration's `assert` passed; a blocked receive or a failed
`assert` ends the execution's trace. -/
def runTrace (payloads : Nat → List Nat) (env : Nat → List Nat → List Datagram) :
    Nat → Nat → List Event
  | 0, _ => []
  | fuel + 1, i =>
    let p := payloads i
    let inc := env i p
    match recvUntilMatch inc with
    | none => iterTrace p inc
    | some (_, m, _) =>
      if (recvfrom m).1 = p then iterTrace p inc ++ runTrace payloads env fuel (i + 1)
      else iterTrace p inc

/-- Accumulated state of the probe process: the endpoint its one socket is
bound to, the payloads sent so far, the contents of the datagrams accepted
by the inner loop so far, whether the `assert` has failed, and whether the
process is blocked forever in `recvfrom`. -/
structure ProbeState where
  sock : Endpoint
  sent : List (List Nat)
  accepted : List (List Nat)
  failed : Bool
  blocked : Bool
deriving DecidableEq, Repr

/-- State after `sock.bind(BIND_ADDR)`, before the first iteration. -/
def initState : ProbeState :=
  { sock := BIND_ADDR, sent := [], accepted := [], failed := false, blocked := false }

/-- One iteration of the outer loop acting on the probe state.  A failed or
blocked process performs nothing further.  Otherwise the payload is sent,
the inner loop runs on the arrivals, and the accepted bytes are compared to
the payload by the `assert`. -/
def stepProbe (payload : List Nat) (incoming : List Datagram) (s : ProbeState) : ProbeState :=
  if s.failed || s.blocked then s
  else
    let s1 := { s with sent := s.sent ++ [payload] }
    match recvUntilMatch incoming with
    | none => { s1 with blocked := true }
    | some (_, m, _) =>
      let got := (recvfrom m).1
      if got = payload then { s1 with accepted := s1.accepted ++ [got] }
      else { s1 with accepted := s1.accepted ++ [got], failed := true }

/-- The probe state after `n` iterations of the outer loop. -/
def runProbe (payloads : Nat → List Nat) (env : Nat → List Nat → List Datagram) :
    Nat → ProbeState
  | 0 => initState
  | n + 1 => stepProbe (payloads n) (env n (payloads n)) (runProbe payloads env n)

/-- A correctly functioning echo server at `ECHO_ADDR`: each sent payload
comes back unchanged, from `ECHO_ADDR`, during its own iteration. -/
def perfectEcho (p : List Nat) : List Datagram := [⟨p, ECHO_ADDR⟩]

/-- The environment in which every iteration's receive phase sees exactly
the perfect echo of the payload that iteration sent. -/
def perfectEchoEnv : Nat → List Nat → List Datagram := fun _ p => perfectEcho p

/-- `true` exactly on send events. -/
def isSend : Event → Bool
  | .send _ _ => true
  | _ => false

/-! ## Helper lemmas -/

theorem genPayload_length (r : Nat → Nat) : (genPayload r).length = 128 := by
  simp [genPayload]

theorem genPayload_bytes (r : Nat → Nat) : ∀ b ∈ genPayload r, b ≤ 255 := by
  intro b hb
  simp only [genPayload, randint, List.mem_map, List.mem_range] at hb
  obtain ⟨i, _, hi⟩ := hb
  omega

theorem genPayload_take (r : Nat → Nat) :
    (genPayload r).take RECV_BUFSIZE = genPayload r := by
  apply List.take_of_length_le
  simp [genPayload_length, RECV_BUFSIZE]

theorem recvUntilMatch_spec (incoming skipped : List Datagram) (m : Datagram)
    (left : List Datagram) (h : recvUntilMatch incoming = some (skipped, m, left)) :
    m.src = ECHO_ADDR ∧ (∀ d ∈ skipped, d.src ≠ ECHO_ADDR) ∧
      incoming = skipped ++ m :: left := by
  induction incoming generalizing skipped with
  | nil => simp [recvUntilMatch] at h
  | cons d rest ih =>
    by_cases hd : d.src = ECHO_ADDR
    · simp only [recvUntilMatch, if_pos hd, Option.some.injEq, Prod.mk.injEq] at h
      obtain ⟨h1, h2, h3⟩ := h
      subst h1 h2 h3
      exact ⟨hd, by simp, by simp⟩
    · simp only [recvUntilMatch, if_neg hd] at h
      cases hr : recvUntilMatch rest with
      | none => rw [hr] at h; cases h
      | some x =>
        obtain ⟨sk, m0, l0⟩ := x
        rw [hr] at h
        simp only [Option.some.injEq, Prod.mk.injEq] at h
        obtain ⟨h1, h2, h3⟩ := h
        subst h2 h3
        obtain ⟨hm, hs, he⟩ := ih sk hr
        subst h1
        refine ⟨hm, ?_, by simp [he]⟩
        intro e he'
        rcases List.mem_cons.mp he' with rfl | hmem
        · exact hd
        · exact hs e hmem

theorem recvUntilMatch_none (incoming : List Datagram)
    (h : ∀ d ∈ incoming, d.src ≠ ECHO_ADDR) : recvUntilMatch incoming = none := by
  induction incoming with
  | nil => rfl
  | cons d rest ih =>
    have hd : ¬ d.src = ECHO_ADDR := h d (List.mem_cons_self d rest)
    have hr : recvUntilMatch rest = none :=
      ih fun e he => h e (List.mem_cons_of_mem d he)
    simp [recvUntilMatch, if_neg hd, hr]

theorem iterTrace_of_match (p : List Nat) (inc skipped left : List Datagram)
    (m : Datagram) (h : recvUntilMatch inc = some (skipped, m, left)) :
    iterTrace p inc =
      Event.send p ECHO_ADDR ::
        ((skipped.map Event.recv ++ [Event.recv m, Event.accept (recvfrom m).1]) ++
          (if (recvfrom m).1 = p then [Event.sleep 1] else [Event.assertFail])) := by
  simp [iterTrace, h]

theorem iterTrace_of_none (p : List Nat) (inc : List Datagram)
    (h : recvUntilMatch inc = none) :
    iterTrace p inc = Event.send p ECHO_ADDR :: inc.map Event.recv := by
  simp [iterTrace, h]

theorem stepProbe_frozen (p : List Nat) (inc : List Datagram) (s : ProbeState)
    (h : s.failed = true ∨ s.blocked = true) : stepProbe p inc s = s := by
  rcases h with h | h <;> simp [stepProbe, h]

theorem runTrace_succ_of_match (payloads : Nat → List Nat)
    (env : Nat → List Nat → List Datagram) (fuel i : Nat)
    (skipped left : List Datagram) (m : Datagram)
    (h : recvUntilMatch (env i (payloads i)) = some (skipped, m, left)) :
    runTrace payloads env (fuel + 1) i =
      if (recvfrom m).1 = payloads i then
        iterTrace (payloads i) (env i (payloads i)) ++ runTrace payloads env fuel (i + 1)
      else iterTrace (payloads i) (env i (payloads i)) := by
  simp only [runTrace]
  rw [h]

theorem runTrace_succ_of_none (payloads : Nat → List Nat)
    (env : Nat → List Nat → List Datagram) (fuel i : Nat)
    (h : recvUntilMatch (env i (payloads i)) = none) :
    runTrace payloads env (fuel + 1) i = iterTrace (payloads i) (env i (payloads i)) := by
  simp only [runTrace]
  rw [h]

/-! ## Claim theorems -/

/-- C1: every payload generated at the start of a loop iteration is a
sequence of exactly 128 bytes, each lying in the range [0, 255] inclusive. -/
theorem C1_payload_is_128_bytes_in_range (r : Nat → Nat) :
    (genPayload r).length = 128 ∧ ∀ b ∈ genPayload r, 0 ≤ b ∧ b ≤ 255 :=
  ⟨genPayload_length r, fun b hb => ⟨Nat.zero_le b, genPayload_bytes r b hb⟩⟩

/-- Witness for C1 at a concrete random stream. -/
theorem C1_witness :
    (genPayload (fun n => n + 1000)).length = 128 ∧
      ∀ b ∈ genPayload (fun n => n + 1000), 0 ≤ b ∧ b ≤ 255 :=
  C1_payload_is_128_bytes_in_range (fun n => n + 1000)

/-- C2: the receive wait is satisfied only by a datagram whose sender is
the configured remote endpoint `ECHO_ADDR`; every datagram read before it
whose sender differs is discarded, and if no arrival has sender
`ECHO_ADDR` the wait is never satisfied. -/
theorem C2_only_matching_sender_accepted (incoming : List Datagram) :
    (∀ skipped m left, recvUntilMatch incoming = some (skipped, m, left) →
        m.src = ECHO_ADDR ∧ (∀ d ∈ skipped, d.src ≠ ECHO_ADDR) ∧
        incoming = skipped ++ m :: left) ∧
    ((∀ d ∈ incoming, d.src ≠ ECHO_ADDR) → recvUntilMatch incoming = none) :=
  ⟨fun skipped m left h => recvUntilMatch_spec incoming skipped m left h,
   recvUntilMatch_none incoming⟩

/-- Witness for C2 on a concrete arrival list: one foreign datagram
followed by one from `ECHO_ADDR`, and an all-foreign list. -/
theorem C2_witness :
    ((Datagram.mk [2, 3] ECHO_ADDR).src = ECHO_ADDR ∧
      (∀ d ∈ [Datagram.mk [1] ("10.0.0.9", 7)], d.src ≠ ECHO_ADDR) ∧
      [Datagram.mk [1] ("10.0.0.9", 7), Datagram.mk [2, 3] ECHO_ADDR] =
        [Datagram.mk [1] ("10.0.0.9", 7)] ++ Datagram.mk [2, 3] ECHO_ADDR :: []) ∧
    recvUntilMatch [Datagram.mk [1] ("10.0.0.9", 7)] = none :=
  ⟨(C2_only_matching_sender_accepted
      [Datagram.mk [1] ("10.0.0.9", 7), Datagram.mk [2, 3] ECHO_ADDR]).1
      [Datagram.mk [1] ("10.0.0.9", 7)] (Datagram.mk [2, 3] ECHO_ADDR) [] (by decide),
   (C2_only_matching_sender_accepted [Datagram.mk [1] ("10.0.0.9", 7)]).2 (by decide)⟩

/-- C3: when the accepted datagram's bytes differ from the iteration's
payload the `assert` fails: the state becomes failed, the execution's trace
ends at this iteration with `assertFail`, contains no sleep for it, and no
later step changes anything.  When they are equal, the iteration ends in
`time.sleep(1)` and the trace continues with the next iteration. -/
theorem C3_mismatch_is_fatal (payloads : Nat → List Nat)
    (env : Nat → List Nat → List Datagram) (fuel i : Nat)
    (skipped left : List Datagram) (m : Datagram) (s : ProbeState)
    (hm : recvUntilMatch (env i (payloads i)) = some (skipped, m, left))
    (hf : s.failed = false) (hb : s.blocked = false) :
    ((recvfrom m).1 ≠ payloads i →
        (stepProbe (payloads i) (env i (payloads i)) s).failed = true ∧
        runTrace payloads env (fuel + 1) i = iterTrace (payloads i) (env i (payloads i)) ∧
        Event.sleep 1 ∉ iterTrace (payloads i) (env i (payloads i)) ∧
        (iterTrace (payloads i) (env i (payloads i))).getLast? = some Event.assertFail ∧
        ∀ q inc2, stepProbe q inc2 (stepProbe (payloads i) (env i (payloads i)) s) =
            stepProbe (payloads i) (env i (payloads i)) s) ∧
    ((recvfrom m).1 = payloads i →
        (stepProbe (payloads i) (env i (payloads i)) s).failed = false ∧
        runTrace payloads env (fuel + 1) i =
          iterTrace (payloads i) (env i (payloads i)) ++ runTrace payloads env fuel (i + 1) ∧
        (iterTrace (payloads i) (env i (payloads i))).getLast? = some (Event.sleep 1)) := by
  constructor
  · intro hne
    have hfail : (stepProbe (payloads i) (env i (payloads i)) s).failed = true := by
      simp [stepProbe, hf, hb, hm, if_neg hne]
    refine ⟨hfail, ?_, ?_, ?_, ?_⟩
    · rw [runTrace_succ_of_match payloads env fuel i skipped left m hm, if_neg hne]
    · rw [iterTrace_of_match (payloads i) _ skipped left m hm, if_neg hne]
      simp
    · rw [iterTrace_of_match (payloads i) _ skipped left m hm, if_neg hne,
        ← List.cons_append, List.getLast?_concat]
    · intro q inc2
      exact stepProbe_frozen q inc2 _ (Or.inl hfail)
  · intro he
    refine ⟨?_, ?_, ?_⟩
    · simp [stepProbe, hf, hb, hm, if_pos he]
    · rw [runTrace_succ_of_match payloads env fuel i skipped left m hm, if_pos he]
    · rw [iterTrace_of_match (payloads i) _ skipped left m hm, if_pos he,
        ← List.cons_append, List.getLast?_concat]

/-- Witness for C3: payload `[1]` but the accepted datagram carries `[2]`. -/
theorem C3_witness :
    (stepProbe [1] [Datagram.mk [2] ECHO_ADDR] initState).failed = true ∧
    runTrace (fun _ => [1]) (fun _ _ => [Datagram.mk [2] ECHO_ADDR]) 1 0 =
      iterTrace [1] [Datagram.mk [2] ECHO_ADDR] := by
  have h := (C3_mismatch_is_fatal (fun _ => [1]) (fun _ _ => [Datagram.mk [2] ECHO_ADDR])
      0 0 [] [] (Datagram.mk [2] ECHO_ADDR) initState (by decide) rfl rfl).1 (by decide)
  exact ⟨h.1, h.2.1⟩

theorem recvUntilMatch_perfectEcho (p : List Nat) :
    recvUntilMatch (perfectEcho p) = some ([], Datagram.mk p ECHO_ADDR, []) := by
  simp [perfectEcho, recvUntilMatch]

/-- C4: with a correctly functioning echo server at `ECHO_ADDR`, the
datagram accepted in an iteration is byte-for-byte the payload that was
sent, the `assert` succeeds, and the iteration records the echo. -/
theorem C4_roundtrip_with_perfect_echo (r : Nat → Nat) (s : ProbeState)
    (hf : s.failed = false) (hb : s.blocked = false) :
    recvUntilMatch (perfectEcho (genPayload r)) =
      some ([], Datagram.mk (genPayload r) ECHO_ADDR, []) ∧
    (recvfrom (Datagram.mk (genPayload r) ECHO_ADDR)).1 = genPayload r ∧
    (stepProbe (genPayload r) (perfectEcho (genPayload r)) s).failed = false ∧
    (stepProbe (genPayload r) (perfectEcho (genPayload r)) s).accepted =
      s.accepted ++ [genPayload r] := by
  have hgot : (recvfrom (Datagram.mk (genPayload r) ECHO_ADDR)).1 = genPayload r := by
    simp [recvfrom, genPayload_take]
  refine ⟨recvUntilMatch_perfectEcho (genPayload r), hgot, ?_, ?_⟩ <;>
    simp [stepProbe, hf, hb, recvUntilMatch_perfectEcho, hgot]

/-- Witness for C4 at a concrete random stream and the start state. -/
theorem C4_witness :
    (stepProbe (genPayload (fun _ => 7)) (perfectEcho (genPayload (fun _ => 7)))
        initState).failed = false ∧
    (stepProbe (genPayload (fun _ => 7)) (perfectEcho (genPayload (fun _ => 7)))
        initState).accepted = [genPayload (fun _ => 7)] := by
  have h := C4_roundtrip_with_perfect_echo (fun _ => 7) initState rfl rfl
  exact ⟨h.2.2.1, h.2.2.2⟩

theorem runProbe_perfect (r : Nat → Nat → Nat) (N : Nat) :
    runProbe (fun n => genPayload (r n)) perfectEchoEnv N =
      { sock := BIND_ADDR,
        sent := (List.range N).map fun n => genPayload (r n),
        accepted := (List.range N).map fun n => genPayload (r n),
        failed := false, blocked := false } := by
  induction N with
  | zero => rfl
  | succ n ih =>
    rw [runProbe, ih]
    simp [stepProbe, perfectEchoEnv, recvUntilMatch_perfectEcho, recvfrom,
      genPayload_take, List.range_succ]

/-- C5: after `N` iterations against a perfect echo server, exactly `N`
payloads have been sent, exactly `N` datagrams accepted, each accepted
content equal to the corresponding sent payload, and the process has
neither failed nor blocked. -/
theorem C5_n_iterations_perfect_server (r : Nat → Nat → Nat) (N : Nat) :
    (runProbe (fun n => genPayload (r n)) perfectEchoEnv N).sent =
      (List.range N).map (fun n => genPayload (r n)) ∧
    (runProbe (fun n => genPayload (r n)) perfectEchoEnv N).accepted =
      (runProbe (fun n => genPayload (r n)) perfectEchoEnv N).sent ∧
    (runProbe (fun n => genPayload (r n)) perfectEchoEnv N).sent.length = N ∧
    (runProbe (fun n => genPayload (r n)) perfectEchoEnv N).accepted.length = N ∧
    (runProbe (fun n => genPayload (r n)) perfectEchoEnv N).failed = false ∧
    (runProbe (fun n => genPayload (r n)) perfectEchoEnv N).blocked = false := by
  rw [runProbe_perfect]
  simp

theorem iterTrace_head_tail (p : List Nat) (inc : List Datagram) :
    ∃ tail, iterTrace p inc = Event.send p ECHO_ADDR :: tail ∧
      ∀ e ∈ tail, isSend e = false := by
  cases hr : recvUntilMatch inc with
  | none =>
    refine ⟨inc.map Event.recv, iterTrace_of_none p inc hr, ?_⟩
    intro e he
    obtain ⟨d, _, rfl⟩ := List.mem_map.mp he
    rfl
  | some x =>
    obtain ⟨skipped, m, left⟩ := x
    refine ⟨_, iterTrace_of_match p inc skipped left m hr, ?_⟩
    intro e he
    by_cases hc : (recvfrom m).1 = p
    · rw [if_pos hc] at he
      simp only [List.mem_append, List.mem_map, List.mem_cons, List.mem_singleton,
        List.not_mem_nil, or_false] at he
      rcases he with (⟨d, _, rfl⟩ | rfl | rfl) | rfl <;> rfl
    · rw [if_neg hc] at he
      simp only [List.mem_append, List.mem_map, List.mem_cons, List.mem_singleton,
        List.not_mem_nil, or_false] at he
      rcases he with (⟨d, _, rfl⟩ | rfl | rfl) | rfl <;> rfl

theorem send_index_zero (a : Event) (tail : List Event)
    (ht : ∀ e ∈ tail, isSend e = false) :
    ∀ j q e, (a :: tail)[j]? = some (Event.send q e) → j = 0 := by
  intro j q e hj
  cases j with
  | zero => rfl
  | succ k =>
    rw [List.getElem?_cons_succ] at hj
    have hmem : Event.send q e ∈ tail := List.getElem?_mem hj
    have := ht _ hmem
    simp [isSend] at this

theorem separated_of_single_send (a : Event) (tail : List Event)
    (ht : ∀ e ∈ tail, isSend e = false) (x y : Nat) (q : List Nat) (e : Endpoint)
    (hxy : x < y) (hy : (a :: tail)[y]? = some (Event.send q e)) :
    ∃ k, x < k ∧ k < y ∧ (a :: tail)[k]? = some (Event.sleep 1) := by
  have hy0 := send_index_zero a tail ht y q e hy
  subst hy0
  exact absurd hxy (Nat.not_lt_zero x)

theorem separated_append (p : List Nat) (d : Endpoint) (mid rest : List Event)
    (hmid : ∀ e ∈ mid, isSend e = false)
    (hrest : ∀ (x y : Nat) (q : List Nat) (e : Endpoint) (q2 : List Nat) (e2 : Endpoint),
        x < y → rest[x]? = some (Event.send q e) →
        rest[y]? = some (Event.send q2 e2) →
        ∃ k, x < k ∧ k < y ∧ rest[k]? = some (Event.sleep 1)) :
    ∀ (x y : Nat) (q : List Nat) (e : Endpoint) (q2 : List Nat) (e2 : Endpoint), x < y →
      ((Event.send p d :: (mid ++ [Event.sleep 1])) ++ rest)[x]? = some (Event.send q e) →
      ((Event.send p d :: (mid ++ [Event.sleep 1])) ++ rest)[y]? = some (Event.send q2 e2) →
      ∃ k, x < k ∧ k < y ∧
        ((Event.send p d :: (mid ++ [Event.sleep 1])) ++ rest)[k]? =
          some (Event.sleep 1) := by
  intro x y q e q2 e2 hxy hx hy
  have hblen : (Event.send p d :: (mid ++ [Event.sleep 1])).length = mid.length + 2 := by
    simp
  have htail : ∀ ev ∈ mid ++ [Event.sleep 1], isSend ev = false := by
    intro ev hev
    rcases List.mem_append.mp hev with h | h
    · exact hmid ev h
    · rw [List.mem_singleton] at h
      subst h
      rfl
  by_cases hxb : x < (Event.send p d :: (mid ++ [Event.sleep 1])).length
  · rw [List.getElem?_append_left hxb] at hx
    have hx0 := send_index_zero _ _ htail x q e hx
    by_cases hyb : y < (Event.send p d :: (mid ++ [Event.sleep 1])).length
    · rw [List.getElem?_append_left hyb] at hy
      have hy0 := send_index_zero _ _ htail y q2 e2 hy
      omega
    · refine ⟨mid.length + 1, by omega, by omega, ?_⟩
      rw [List.getElem?_append_left (by omega), List.getElem?_cons_succ]
      exact List.getElem?_concat_length mid (Event.sleep 1)
  · have hyb : ¬ y < (Event.send p d :: (mid ++ [Event.sleep 1])).length := by omega
    rw [List.getElem?_append_right (Nat.le_of_not_lt hxb)] at hx
    rw [List.getElem?_append_right (Nat.le_of_not_lt hyb)] at hy
    obtain ⟨k, hk1, hk2, hk3⟩ :=
      hrest _ _ q e q2 e2 (by omega) hx hy
    refine ⟨k + (Event.send p d :: (mid ++ [Event.sleep 1])).length, by omega, by omega, ?_⟩
    rw [List.getElem?_append_right (by omega)]
    simpa using hk3

theorem runTrace_separated (payloads : Nat → List Nat)
    (env : Nat → List Nat → List Datagram) :
    ∀ (fuel i x y : Nat) (q : List Nat) (e : Endpoint) (q2 : List Nat) (e2 : Endpoint),
      x < y →
      (runTrace payloads env fuel i)[x]? = some (Event.send q e) →
      (runTrace payloads env fuel i)[y]? = some (Event.send q2 e2) →
      ∃ k, x < k ∧ k < y ∧
        (runTrace payloads env fuel i)[k]? = some (Event.sleep 1) := by
  intro fuel
  induction fuel with
  | zero =>
    intro i x y q e q2 e2 _ hx _
    simp [runTrace] at hx
  | succ f ih =>
    intro i x y q e q2 e2 hxy hx hy
    cases hr : recvUntilMatch (env i (payloads i)) with
    | none =>
      rw [runTrace_succ_of_none payloads env f i hr] at hx hy ⊢
      obtain ⟨tail, heq, htail⟩ := iterTrace_head_tail (payloads i) (env i (payloads i))
      rw [heq] at hy ⊢
      exact separated_of_single_send _ tail htail x y q2 e2 hxy hy
    | some z =>
      obtain ⟨skipped, m, left⟩ := z
      rw [runTrace_succ_of_match payloads env f i skipped left m hr] at hx hy ⊢
      by_cases hc : (recvfrom m).1 = payloads i
      · rw [if_pos hc] at hx hy ⊢
        rw [iterTrace_of_match (payloads i) _ skipped left m hr, if_pos hc] at hx hy ⊢
        exact separated_append (payloads i) ECHO_ADDR
          (skipped.map Event.recv ++ [Event.recv m, Event.accept (recvfrom m).1])
          (runTrace payloads env f (i + 1))
          (by
            intro ev hev
            rcases List.mem_append.mp hev with h | h
            · obtain ⟨dg, _, rfl⟩ := List.mem_map.mp h
              rfl
            · rcases List.mem_cons.mp h with rfl | h
              · rfl
              · rw [List.mem_singleton] at h
                subst h
                rfl)
          (fun x y q e q2 e2 hlt hxx hyy => ih (i + 1) x y q e q2 e2 hlt hxx hyy)
          x y q e q2 e2 hxy hx hy
      · rw [if_neg hc] at hx hy ⊢
        obtain ⟨tail, heq, htail⟩ := iterTrace_head_tail (payloads i) (env i (payloads i))
        rw [heq] at hy ⊢
        exact separated_of_single_send _ tail htail x y q2 e2 hxy hy

/-- C6: between any two send events of an execution trace there is a
`time.sleep(1)` event: two sends never happen without an intervening
1-second pause, so under negligible round-trip latency consecutive sends
are at least 1 second apart. -/
theorem C6_sends_separated_by_sleep (payloads : Nat → List Nat)
    (env : Nat → List Nat → List Datagram) (fuel i x y : Nat)
    (q : List Nat) (e : Endpoint) (q2 : List Nat) (e2 : Endpoint)
    (hxy : x < y)
    (hx : (runTrace payloads env fuel i)[x]? = some (Event.send q e))
    (hy : (runTrace payloads env fuel i)[y]? = some (Event.send q2 e2)) :
    ∃ k, x < k ∧ k < y ∧ (runTrace payloads env fuel i)[k]? = some (Event.sleep 1) :=
  runTrace_separated payloads env fuel i x y q e q2 e2 hxy hx hy

/-- Witness for C6: two iterations against a perfect echo server; the
sends sit at trace positions 0 and 4 with the sleep between them. -/
theorem C6_witness :
    (0 : Nat) < 4 ∧
    (runTrace (fun _ => [0]) perfectEchoEnv 2 0)[0]? = some (Event.send [0] ECHO_ADDR) ∧
    (runTrace (fun _ => [0]) perfectEchoEnv 2 0)[4]? = some (Event.send [0] ECHO_ADDR) ∧
    ∃ k, 0 < k ∧ k < 4 ∧
      (runTrace (fun _ => [0]) perfectEchoEnv 2 0)[k]? = some (Event.sleep 1) :=
  ⟨by decide, by decide, by decide,
   C6_sends_separated_by_sleep (fun _ => [0]) perfectEchoEnv 2 0 0 4
     [0] ECHO_ADDR [0] ECHO_ADDR (by decide) (by decide) (by decide)⟩

/-- C7: when no arrival has sender `ECHO_ADDR` the wait never ends: the
trace of the execution, whatever the remaining fuel, holds the one send,
then only receives — no later send, no acceptance, no `assert` outcome, no
sleep — and the state is blocked. -/
theorem C7_no_timeout_blocks_forever (payloads : Nat → List Nat)
    (env : Nat → List Nat → List Datagram) (fuel i : Nat)
    (h : ∀ d ∈ env i (payloads i), d.src ≠ ECHO_ADDR) :
    recvUntilMatch (env i (payloads i)) = none ∧
    runTrace payloads env (fuel + 1) i =
      Event.send (payloads i) ECHO_ADDR :: (env i (payloads i)).map Event.recv ∧
    (∀ (j : Nat) (q : List Nat) (e : Endpoint),
        (runTrace payloads env (fuel + 1) i)[j]? = some (Event.send q e) → j = 0) ∧
    Event.assertFail ∉ runTrace payloads env (fuel + 1) i ∧
    (∀ data, Event.accept data ∉ runTrace payloads env (fuel + 1) i) ∧
    (∀ t, Event.sleep t ∉ runTrace payloads env (fuel + 1) i) ∧
    (stepProbe (payloads i) (env i (payloads i)) initState).blocked = true := by
  have hnone := recvUntilMatch_none _ h
  have htr : runTrace payloads env (fuel + 1) i =
      Event.send (payloads i) ECHO_ADDR :: (env i (payloads i)).map Event.recv := by
    rw [runTrace_succ_of_none payloads env fuel i hnone, iterTrace_of_none _ _ hnone]
  refine ⟨hnone, htr, ?_, ?_, ?_, ?_, ?_⟩
  · intro j q e hj
    rw [htr] at hj
    refine send_index_zero _ _ ?_ j q e hj
    intro ev hev
    obtain ⟨d, _, rfl⟩ := List.mem_map.mp hev
    rfl
  · rw [htr]; simp
  · intro data
    rw [htr]; simp
  · intro t
    rw [htr]; simp
  · simp [stepProbe, initState, hnone]

/-- Witness for C7: a single foreign-sender arrival. -/
theorem C7_witness :
    recvUntilMatch [Datagram.mk [5] ("10.0.0.9", 7)] = none ∧
    (stepProbe [0] [Datagram.mk [5] ("10.0.0.9", 7)] initState).blocked = true := by
  have h := C7_no_timeout_blocks_forever (fun _ => [0])
    (fun _ _ => [Datagram.mk [5] ("10.0.0.9", 7)]) 0 0 (by decide)
  exact ⟨h.1, h.2.2.2.2.2.2⟩

theorem stepProbe_sock (p : List Nat) (inc : List Datagram) (s : ProbeState) :
    (stepProbe p inc s).sock = s.sock := by
  cases hr : recvUntilMatch inc with
  | none => by_cases hs : (s.failed || s.blocked) = true <;> simp [stepProbe, hr, hs]
  | some x =>
    obtain ⟨sk, m, l⟩ := x
    by_cases hs : (s.failed || s.blocked) = true <;>
      by_cases hm : (recvfrom m).1 = p <;> simp [stepProbe, hr, hs, hm]

theorem runProbe_sock (payloads : Nat → List Nat)
    (env : Nat → List Nat → List Datagram) (N : Nat) :
    (runProbe payloads env N).sock = BIND_ADDR := by
  induction N with
  | zero => rfl
  | succ n ih => rw [runProbe, stepProbe_sock, ih]

theorem send_mem_iterTrace (p : List Nat) (inc : List Datagram) (q : List Nat)
    (e : Endpoint) (h : Event.send q e ∈ iterTrace p inc) : q = p ∧ e = ECHO_ADDR := by
  obtain ⟨tail, heq, htail⟩ := iterTrace_head_tail p inc
  rw [heq] at h
  rcases List.mem_cons.mp h with h | h
  · simp only [Event.send.injEq] at h
    exact h
  · have := htail _ h
    simp [isSend] at this

theorem send_mem_runTrace (payloads : Nat → List Nat)
    (env : Nat → List Nat → List Datagram) :
    ∀ fuel i (q : List Nat) (e : Endpoint),
      Event.send q e ∈ runTrace payloads env fuel i → e = ECHO_ADDR := by
  intro fuel
  induction fuel with
  | zero =>
    intro i q e h
    simp [runTrace] at h
  | succ f ih =>
    intro i q e h
    cases hr : recvUntilMatch (env i (payloads i)) with
    | none =>
      rw [runTrace_succ_of_none payloads env f i hr] at h
      exact (send_mem_iterTrace _ _ q e h).2
    | some x =>
      obtain ⟨sk, m, l⟩ := x
      rw [runTrace_succ_of_match payloads env f i sk l m hr] at h
      by_cases hm : (recvfrom m).1 = payloads i
      · rw [if_pos hm] at h
        rcases List.mem_append.mp h with h | h
        · exact (send_mem_iterTrace _ _ q e h).2
        · exact ih (i + 1) q e h
      · rw [if_neg hm] at h
        exact (send_mem_iterTrace _ _ q e h).2

/-- C8: the two endpoints are the fixed constants of the source and no
operation changes them: the socket of the state after any number of
iterations is still bound to `BIND_ADDR`, and every send event of every
trace targets `ECHO_ADDR`. -/
theorem C8_endpoints_constant (payloads : Nat → List Nat)
    (env : Nat → List Nat → List Datagram) (N fuel i : Nat) :
    BIND_ADDR = ("10.0.0.1", 2048) ∧ ECHO_ADDR = ("10.0.0.103", 4096) ∧
    (runProbe payloads env N).sock = BIND_ADDR ∧ initState.sock = BIND_ADDR ∧
    ∀ (q : List Nat) (e : Endpoint),
      Event.send q e ∈ runTrace payloads env fuel i → e = ECHO_ADDR :=
  ⟨rfl, rfl, runProbe_sock payloads env N, rfl,
   fun q e h => send_mem_runTrace payloads env fuel i q e h⟩

/-- Witness for C8 after three perfect-echo iterations, with a concrete
send event from the trace. -/
theorem C8_witness :
    (runProbe (fun _ => [0]) perfectEchoEnv 3).sock = BIND_ADDR ∧
    ("10.0.0.103", 4096) = ECHO_ADDR := by
  have h := C8_endpoints_constant (fun _ => [0]) perfectEchoEnv 3 1 0
  exact ⟨h.2.2.1, (h.2.2.2.2 [0] ("10.0.0.103", 4096) (by decide)).symm⟩

/-- C9: `recvfrom` reads at most 128 bytes of a datagram, so the equality
check only examines the first 128 bytes: a matching-sender datagram longer
than 128 bytes whose first 128 bytes equal the sent payload still passes
the `assert`. -/
theorem C9_recv_truncated_to_buffer (p extra : List Nat) (s : ProbeState)
    (hp : p.length = 128) (hf : s.failed = false) (hb : s.blocked = false) :
    (recvfrom (Datagram.mk (p ++ extra) ECHO_ADDR)).1 = p ∧
    (stepProbe p [Datagram.mk (p ++ extra) ECHO_ADDR] s).failed = false ∧
    (stepProbe p [Datagram.mk (p ++ extra) ECHO_ADDR] s).accepted =
      s.accepted ++ [p] := by
  have htake : (p ++ extra).take RECV_BUFSIZE = p := by
    show (p ++ extra).take 128 = p
    rw [← hp]
    exact List.take_left p extra
  have hgot : (recvfrom (Datagram.mk (p ++ extra) ECHO_ADDR)).1 = p := by
    simp [recvfrom, htake]
  have hrec : recvUntilMatch [Datagram.mk (p ++ extra) ECHO_ADDR] =
      some ([], Datagram.mk (p ++ extra) ECHO_ADDR, []) := by
    simp [recvUntilMatch]
  refine ⟨hgot, ?_, ?_⟩ <;> simp [stepProbe, hf, hb, hrec, hgot]

/-- Witness for C9: a 128-byte payload echoed back with 3 extra bytes. -/
theorem C9_witness :
    (List.replicate 128 0).length = 128 ∧
    (stepProbe (List.replicate 128 0)
      [Datagram.mk (List.replicate 128 0 ++ [1, 2, 3]) ECHO_ADDR]
      initState).failed = false :=
  ⟨by simp,
   (C9_recv_truncated_to_buffer (List.replicate 128 0) [1, 2, 3] initState
     (by simp) rfl rfl).2.1⟩

/-- C10: acceptance is decided solely by the sender endpoint: the first
arrival from `ECHO_ADDR` is accepted whatever bytes it carries — e.g. a
delayed echo of an earlier payload — and is then compared against the
current payload, failing the `assert` exactly when its (truncated) bytes
differ from it. -/
theorem C10_accepts_by_sender_only (p old : List Nat) (rest : List Datagram)
    (s : ProbeState) (hf : s.failed = false) (hb : s.blocked = false) :
    recvUntilMatch (Datagram.mk old ECHO_ADDR :: rest) =
      some ([], Datagram.mk old ECHO_ADDR, rest) ∧
    (old.take RECV_BUFSIZE ≠ p →
      (stepProbe p (Datagram.mk old ECHO_ADDR :: rest) s).failed = true) ∧
    (old.take RECV_BUFSIZE = p →
      (stepProbe p (Datagram.mk old ECHO_ADDR :: rest) s).failed = false) := by
  have hrec : recvUntilMatch (Datagram.mk old ECHO_ADDR :: rest) =
      some ([], Datagram.mk old ECHO_ADDR, rest) := by
    simp [recvUntilMatch]
  refine ⟨hrec, ?_, ?_⟩
  · intro hne
    simp [stepProbe, hf, hb, hrec, recvfrom, if_neg hne]
  · intro he
    simp [stepProbe, hf, hb, hrec, recvfrom, if_pos he]

/-- Witness for C10: a stale datagram `[9, 9]` from `ECHO_ADDR` is accepted
while the current payload is `[1]`, and the `assert` fails. -/
theorem C10_witness :
    recvUntilMatch [Datagram.mk [9, 9] ECHO_ADDR] =
      some ([], Datagram.mk [9, 9] ECHO_ADDR, []) ∧
    (stepProbe [1] [Datagram.mk [9, 9] ECHO_ADDR] initState).failed = true := by
  have h := C10_accepts_by_sender_only [1] [9, 9] [] initState rfl rfl
  exact ⟨h.1, h.2.1 (by decide)⟩

end UdpEchoClient
